import Mathlib

/-!
# Verification development for the SB-CSE-GNITC placement portal

Shallow embedding of the server's core logic (`server.js`) and the relevant
client service surface (`placement.service.ts`, `student.component.ts`):

* the company-name normalizer (`normalizeCompanyName`, server.js 1207-1214);
* the record store (Student / Placement / Company / Notification collections)
  as lists, with Mongo-style lookup and update helpers;
* the notification dispatcher (`createNotification`, server.js 200-220);
* the mark-as-read route (server.js 240-257);
* the admin verification route (`POST /api/admin/verify`, server.js 882-967);
* placement submission (`POST /api/placements`, server.js 633-679);
* the startup photo-verification sweep (`checkStudentVerification`,
  server.js 409-419) and photo upload (server.js 696-727);
* the report assembler's logo resolution (server.js 1246-1258);
* the server's route table and the 404 catch-all (server.js 1361-1363),
  together with the client placement-service method list.

Emails are modelled by recording every attempted send (address and the
outcome the mail transport would report) in `Store.emailsSent`; a handler
that fires an email appends to that list, and the recorded outcome never
feeds back into the handler's response (fire-and-forget).
-/

/-- Verification status enum (`['verified', 'pending', 'rejected']`). -/
inductive VStatus where
  | verified
  | pending
  | rejected
deriving Repr, DecidableEq

/-- A Student document (studentSchema, server.js 375-388).
`oid` is the Mongo `_id`; `id` is the student identifier (natural key).
`photo = none` models a `null` photo, `some ""` an empty one. -/
structure StudentR where
  oid : String
  id : String
  name : String
  company : String
  salary : Int
  photo : Option String
  logo : String
  verificationStatus : VStatus
deriving Repr, DecidableEq

/-- A Placement document (placementSchema, server.js 339-350). `pid` is the
Mongo `_id`. -/
structure PlacementR where
  pid : String
  studentId : String
  name : String
  company : String
  salary : Int
  photo : String
  logo : String
  isOriginal : Bool
  verificationStatus : VStatus
deriving Repr, DecidableEq

/-- A Notification document (notificationSchema, server.js 188-196).
`nid` models the Mongo `_id` as a plain counter. -/
structure NotificationR where
  nid : Nat
  recipient : String
  title : String
  message : String
  ntype : String
  read : Bool
deriving Repr, DecidableEq

/-- A Company registry document (companySchema, server.js 1060-1064). -/
structure CompanyR where
  name : String
  logo : String
deriving Repr, DecidableEq

/-- The record store: the four Mongo collections, plus the log of attempted
email sends (address, outcome reported by the transport) and a counter for
fresh notification ids. -/
structure Store where
  students : List StudentR
  placements : List PlacementR
  notifications : List NotificationR
  companies : List CompanyR
  emailsSent : List (String × Bool)
  nextId : Nat
deriving Repr, DecidableEq

def emptyStore : Store := ⟨[], [], [], [], [], 0⟩

/- ## String helpers (JS semantics, over character lists) -/

/-- JS `\s` for the ASCII range. -/
def isJsWhitespace (c : Char) : Bool :=
  c = ' ' || c = '\t' || c = '\n' || c = '\r' || c = '\x0b' || c = '\x0c'

/-- ASCII lower-casing, as JS `toLowerCase` acts on the inputs here. -/
def jsCharToLower (c : Char) : Char :=
  if 'A' ≤ c && c ≤ 'Z' then Char.ofNat (c.toNat + 32) else c

def jsToLower (s : String) : String :=
  ⟨s.toList.map jsCharToLower⟩

/-- Test whether `pat` occurs at the head of `s` (`s.take pat.length == pat`). -/
def subAt (s pat : List Char) : Bool :=
  s.take pat.length == pat

/-- Does `pat` occur anywhere in `s`? (JS `String.prototype.includes`.) -/
def hasSub : List Char → List Char → Bool
  | [], pat => pat.isEmpty
  | c :: rest, pat => subAt (c :: rest) pat || hasSub rest pat

def strIncludes (s pat : String) : Bool :=
  hasSub s.toList pat.toList

/-- JS `startsWith`. -/
def strStartsWith (s pat : String) : Bool :=
  subAt s.toList pat.toList

/-- JS `trim` (ASCII whitespace). -/
def jsTrim (s : String) : String :=
  ⟨((s.toList.dropWhile isJsWhitespace).reverse.dropWhile isJsWhitespace).reverse⟩

/- ## Name Normalizer (server.js 1206-1214)

```
function normalizeCompanyName(name) {
  if (!name) return '';
  return name.toLowerCase()
    .replace(/\s+/g, '')
    .replace(/[^a-z0-9]/gi, '')
    .replace(/(technologies|tech|solutions|pvt|ltd|limited|private|inc|llp)$/gi, '')
    .trim();
}
```
-/

/-- The `.replace(/\s+/g, '')` step. -/
def removeWhitespace (s : String) : String :=
  ⟨s.toList.filter (fun c => !(isJsWhitespace c))⟩

/-- Kept by `[^a-z0-9]` with the `i` flag: ASCII letters and digits. -/
def isAsciiAlphanum (c : Char) : Bool :=
  ('a' ≤ c && c ≤ 'z') || ('A' ≤ c && c ≤ 'Z') || ('0' ≤ c && c ≤ '9')

/-- The `.replace(/[^a-z0-9]/gi, '')` step. -/
def keepAlphanum (s : String) : String :=
  ⟨s.toList.filter isAsciiAlphanum⟩

/-- The alternation in the suffix-stripping regex, in source order. -/
def companySuffixes : List String :=
  ["technologies", "tech", "solutions", "pvt", "ltd", "limited", "private",
   "inc", "llp"]

/-- Does one of the suffix alternatives match at position `i` and run to the
end of the string (the `$` anchor)? -/
def suffixMatchAt (s : List Char) (i : Nat) : Bool :=
  companySuffixes.any (fun t => s.drop i == t.toList)

/-- The regex engine scans left to right, so the replaced match is the one
with the smallest start position whose alternative reaches `$`. -/
def firstSuffixPos (s : List Char) : Option Nat :=
  (List.range s.length).find? (fun i => suffixMatchAt s i)

/-- The suffix-stripping `.replace(..., '')` step: remove the single match
ending at the end of the string, if any. -/
def stripCompanySuffix (s : String) : String :=
  match firstSuffixPos s.toList with
  | some i => ⟨s.toList.take i⟩
  | none => s

/-- server.js 1207-1214. `!name` is only the empty string here. -/
def normalizeCompanyName (name : String) : String :=
  if name = "" then ""
  else jsTrim (stripCompanySuffix (keepAlphanum (removeWhitespace (jsToLower name))))

/- ## Record-store lookups and updates -/

/-- Lookup `Placement.findById(id)`. -/
def findPlacement (l : List PlacementR) (i : String) : Option PlacementR :=
  l.find? (fun p => p.pid = i)

/-- The update half of `Placement.findByIdAndUpdate(id, { verificationStatus })`. -/
def updatePlacementStatus (l : List PlacementR) (i : String) (v : VStatus) :
    List PlacementR :=
  l.map (fun p => if p.pid = i then { p with verificationStatus := v } else p)

/-- Lookup `Student.findOne(\x7b id \x7d)` (exact match, as in the verify route). -/
def findStudentById (l : List StudentR) (i : String) : Option StudentR :=
  l.find? (fun s => s.id = i)

/-- Lookup `Student.findOne` by case-insensitive id regex (as in the student
routes). -/
def findStudentCI (l : List StudentR) (i : String) : Option StudentR :=
  l.find? (fun s => jsToLower s.id = jsToLower i)

/-- Lookup `Student.findById(oid)` (Mongo `_id` lookup). -/
def findStudentByOid (l : List StudentR) (oid : String) : Option StudentR :=
  l.find? (fun s => s.oid = oid)

/-- The update half of `Student.findByIdAndUpdate(oid, { verificationStatus })`. -/
def updateStudentStatusByOid (l : List StudentR) (oid : String) (v : VStatus) :
    List StudentR :=
  l.map (fun s => if s.oid = oid then { s with verificationStatus := v } else s)

/-- Mongo filter matching a null or empty photo, and the `!student?.photo`
guard in the submission route. -/
def photoEmpty (s : StudentR) : Bool :=
  match s.photo with
  | none => true
  | some p => p = ""

/- ## Notification Dispatcher (server.js 200-220) -/

/-- The configured admin address (`process.env.EMAIL_USER`). -/
def adminEmail : String := "EMAIL_USER"

/-- The derived address computed at server.js 208-214: the admin channel maps
to the configured address, any other recipient to
`recipient.toLowerCase() + "@gniindia.org"`. -/
def deriveEmail (recipient : String) : String :=
  if recipient = "admin" then adminEmail
  else jsToLower recipient ++ "@gniindia.org"

/-- Dispatcher `createNotification(recipient, title, message, type)`: persists the
Notification document. The function computes the derived address
(`deriveEmail`) but sends nothing — the comment at server.js 216 defers all
email sending to the trigger points, so `emailsSent` is untouched. -/
def createNotification (st : Store) (recipient title message ntype : String) :
    Store :=
  { st with
      notifications :=
        st.notifications ++ [⟨st.nextId, recipient, title, message, ntype, false⟩],
      nextId := st.nextId + 1 }

/- ## Mark as read (POST /api/notifications/read, server.js 240-257) -/

/-- Update `Notification.findByIdAndUpdate(id, ...read true)` applied to one
document. -/
def readSet (i : Nat) (n : NotificationR) : NotificationR :=
  if n.nid = i then { n with read := true } else n

/-- The mark-as-read route body for the session's recipient: with an id it
marks that one document (regardless of owner); with no id it marks all of
the recipient's unread documents. It always answers `{ success: true }`. -/
def markAsRead (st : Store) (recipient : String) (i : Option Nat) :
    Bool × Store :=
  match i with
  | some i =>
      (true, { st with notifications := st.notifications.map (readSet i) })
  | none =>
      (true, { st with
          notifications := st.notifications.map
            (fun n =>
              if n.recipient = recipient && n.read = false then
                { n with read := true }
              else n) })

/- ## Admin verification (POST /api/admin/verify, server.js 882-967) -/

/-- server.js 885: `action === 'approve' ? 'verified' : 'rejected'`.
`none` models a missing `action` field. -/
def targetStatus (action : Option String) : VStatus :=
  if action = some "approve" then .verified else .rejected

def verifiedTitle : String := "✅ Official Record: VERIFIED"

def rejectedTitle : String := "⚠️ Record Needs Revision"

def verifiedMessage (company : String) : String :=
  "Great news! Your placement at " ++ company ++
    " has been verified and officially recorded."

def rejectedMessage (company : String) : String :=
  "Your placement at " ++ company ++
    " was not approved. Please check details and resubmit."

/-- The verify route. `eok` is the outcome the mail transport would report
for the fired email; the `.catch` at server.js 946-947 swallows it, so it is
only recorded in `emailsSent` and never influences the response. In every
non-exception path the route answers `{ success: true }` (server.js 962). -/
def adminVerify (st : Store) (ty i : String) (action : Option String)
    (eok : Bool) : Bool × Store :=
  let status := targetStatus action
  if ty = "placement" then
    match findPlacement st.placements i with
    | some p =>
        let st1 := { st with placements := updatePlacementStatus st.placements i status }
        match findStudentById st1.students p.studentId with
        | some s =>
            let title := if status = .verified then verifiedTitle else rejectedTitle
            let message :=
              if status = .verified then verifiedMessage p.company
              else rejectedMessage p.company
            let st2 := createNotification st1 s.id title message
              (if status = .verified then "success" else "warning")
            let st3 := { st2 with
              emailsSent := st2.emailsSent ++ [(jsToLower s.id ++ "@gniindia.org", eok)] }
            (true, st3)
        | none => (true, st1)
    | none => (true, st)
  else if ty = "original" then
    match findStudentByOid st.students i with
    | some s =>
        let st1 := { st with students := updateStudentStatusByOid st.students i status }
        let st2 := createNotification st1 s.id "Profile Status Update"
          ("Your profile verification status is now: " ++
            (if status = .verified then "VERIFIED" else "REJECTED")) "info"
        (true, st2)
    | none => (true, st)
  else (true, st)

/- ## Placement submission (POST /api/placements, server.js 633-679) -/

/-- The document built at server.js 643-652. `logo || student.logo` takes
the provided logo when truthy (nonempty), else the student's default. -/
def newPlacementDoc (pid sessionId : String) (s : StudentR)
    (company : String) (salary : Int) (logo : String) : PlacementR :=
  { pid := pid
    studentId := sessionId
    name := s.name
    company := company
    salary := salary
    photo := s.photo.getD ""
    logo := if logo ≠ "" then logo else s.logo
    isOriginal := false
    verificationStatus := .pending }

/-- The submission route: rejects with a 400 validation error (`false`, store
unchanged) when the session's student has no photo on file (or does not
resolve at all, `!student?.photo`); otherwise creates the placement with
status `pending`, notifies the admin channel and fires an email to the
configured admin address. -/
def submitPlacement (st : Store) (sessionId sessionName company : String)
    (salary : Int) (logo : String) (pid : String) (eok : Bool) :
    Bool × Store :=
  match findStudentCI st.students sessionId with
  | none => (false, st)
  | some s =>
      if photoEmpty s then (false, st)
      else
        let st1 := { st with
          placements := st.placements ++ [newPlacementDoc pid sessionId s company salary logo] }
        let st2 := createNotification st1 "admin" "New Placement Submission"
          (sessionName ++ " (" ++ sessionId ++ ") submitted placement at " ++ company)
          "info"
        let st3 := { st2 with emailsSent := st2.emailsSent ++ [(adminEmail, eok)] }
        (true, st3)

/- ## Startup sweep and photo upload -/

/-- Sweep `checkStudentVerification` (server.js 409-419):
`updateMany({ $or: [{photo: null}, {photo: ''}] }, { $set: { verificationStatus: 'pending' } })`. -/
def checkStudentVerification (st : Store) : Store :=
  { st with
      students := st.students.map
        (fun s => if photoEmpty s then { s with verificationStatus := .pending } else s) }

/-- The successful path of POST /api/upload-photo (server.js 712-715):
`findOneAndUpdate({ id: /^sessionId$/i }, { photo: photoUrl, verificationStatus: 'pending' })`. -/
def uploadPhoto (st : Store) (sessionId photoUrl : String) : Bool × Store :=
  (true, { st with
      students := st.students.map
        (fun s =>
          if jsToLower s.id = jsToLower sessionId then
            { s with photo := some photoUrl, verificationStatus := .pending }
          else s) })

/-- PUT /api/students/:id (server.js 826-841): the admin edit updates name,
company and salary only — it never touches `verificationStatus`. -/
def adminUpdateStudent (st : Store) (sid name company : String) (salary : Int) :
    Store :=
  { st with
      students := st.students.map
        (fun s =>
          if jsToLower s.id = jsToLower sid then
            { s with name := name, company := company, salary := salary }
          else s) }

/-- The server operations that write to the Student collection's
`verificationStatus`-bearing documents. -/
inductive StudentOp where
  | sweep
  | upload (sessionId photoUrl : String)
  | adminUpdate (sid name company : String) (salary : Int)
  | verifyOriginal (oid : String) (action : Option String) (eok : Bool)
deriving Repr, DecidableEq

def applyStudentOp (st : Store) : StudentOp → Store
  | .sweep => checkStudentVerification st
  | .upload sid url => (uploadPhoto st sid url).2
  | .adminUpdate sid name company salary => adminUpdateStudent st sid name company salary
  | .verifyOriginal oid action eok => (adminVerify st "original" oid action eok).2

/- ## Report Assembler logo resolution (GET /download/word, server.js 1231-1258) -/

/-- The `companyLogoMap` built at server.js 1232-1235: keyed by the
normalized company name; a later registry entry with the same key
overwrites an earlier one. -/
def companyLogoMap (cs : List CompanyR) (key : String) : Option String :=
  (cs.reverse.find? (fun c => normalizeCompanyName c.name = key)).map (fun c => c.logo)

/-- server.js 1250-1254: `if (companyName && companyLogoMap[companyName])` —
the registry answers only for a nonempty key whose mapped logo is truthy. -/
def registryLogo (cs : List CompanyR) (key : String) : Option String :=
  if key = "" then none
  else
    match companyLogoMap cs key with
    | some l => if l = "" then none else some l
    | none => none

/-- server.js 1248-1258: registry first; else the row's stored logo, but only
when it is nonempty and contains the substring `cloudinary.com`; else no
logo (`''`). -/
def resolveLogoUrl (cs : List CompanyR) (company rowLogo : String) : String :=
  match registryLogo cs (normalizeCompanyName company) with
  | some l => l
  | none =>
      if rowLogo != "" && strIncludes rowLogo "cloudinary.com" then rowLogo
      else ""

/-- Modelled from the spec: a "fully-qualified remote URL". The repository's
own idiom for a remote URL is `startsWith('http')` (server.js 288, 1179);
this definition exists only to compare the spec's wording against the
code's `includes('cloudinary.com')` test. -/
def specFullyQualifiedRemoteUrl (s : String) : Bool :=
  strStartsWith s "http"

/- ## Server route table and the 404 catch-all -/

/-- One segment of a registered route path: a literal or a `:param`. -/
inductive Seg where
  | lit (s : String)
  | param
deriving Repr, DecidableEq

def segMatches : Seg → String → Bool
  | .lit s, t => s = t
  | .param, _ => true

def pathMatches (pat : List Seg) (xs : List String) : Bool :=
  pat.length = xs.length && (List.zip pat xs).all (fun q => segMatches q.1 q.2)

/-- Every route registered on the Express app in server.js, in registration
order (method, path segments). -/
def routes : List (String × List Seg) :=
  [ ("GET", [.lit "healthz"]),
    ("GET", [.lit "api", .lit "test-email"]),
    ("GET", [.lit "api", .lit "notifications"]),
    ("POST", [.lit "api", .lit "notifications", .lit "read"]),
    ("GET", [.lit "favicon.ico"]),
    ("GET", []),
    ("GET", [.lit "login"]),
    ("POST", [.lit "api", .lit "login"]),
    ("POST", [.lit "api", .lit "change-password"]),
    ("GET", [.lit "logout"]),
    ("GET", [.lit "api", .lit "auth", .lit "status"]),
    ("GET", [.lit "api", .lit "admin", .lit "logs"]),
    ("GET", [.lit "api", .lit "me"]),
    ("GET", [.lit "api", .lit "placements"]),
    ("GET", [.lit "api", .lit "my-profile"]),
    ("POST", [.lit "api", .lit "placements"]),
    ("DELETE", [.lit "api", .lit "placements", .param]),
    ("POST", [.lit "api", .lit "upload-photo"]),
    ("GET", [.lit "api", .lit "photo", .param]),
    ("GET", [.lit "api", .lit "logos", .param]),
    ("GET", [.lit "photo", .param]),
    ("POST", [.lit "api", .lit "students", .lit "create"]),
    ("PUT", [.lit "api", .lit "students", .param]),
    ("DELETE", [.lit "api", .lit "students", .param]),
    ("POST", [.lit "api", .lit "admin", .lit "verify"]),
    ("POST", [.lit "api", .lit "admin", .lit "send-pending-reminders"]),
    ("GET", [.lit "api", .lit "admin", .lit "students"]),
    ("GET", [.lit "api", .lit "companies"]),
    ("POST", [.lit "api", .lit "companies"]),
    ("DELETE", [.lit "api", .lit "companies", .param]),
    ("GET", [.lit "api", .lit "logos"]),
    ("GET", [.lit "download", .lit "excel"]),
    ("GET", [.lit "download", .lit "word"]),
    ("GET", [.lit "preview", .lit "word"]) ]

def findRoute (method : String) (xs : List String) :
    Option (String × List Seg) :=
  routes.find? (fun r => r.1 = method && pathMatches r.2 xs)

/-- An HTTP response as far as the claims need it. -/
structure HttpResponse where
  status : Nat
  body : String
deriving Repr, DecidableEq

/-- The catch-all at server.js 1361-1363: a request matching no registered
route gets a 404 JSON error and no collection is touched. -/
def notFoundHandler (st : Store) : HttpResponse × Store :=
  (⟨404, "Not Found"⟩, st)

/-- The method names actually defined on `PlacementService`
(client/src/app/core/services/placement.service.ts). -/
def placementServiceMethods : List String :=
  ["fetchPlacements", "calculateStats", "groupPlacements", "verifyPlacement",
   "getMyProfile", "submitPlacement", "deleteMyPlacement", "uploadPhoto",
   "fetchCompanies", "addCompany", "deleteCompany", "fetchNotifications",
   "markAsRead", "deleteStudent", "updateStudent", "createStudent"]

/- ## Sample records for concrete evaluations -/

def s001 : StudentR :=
  ⟨"OID1", "S001", "Student One", "", 0, none, "", .pending⟩

def s001p : StudentR :=
  { s001 with photo := some "https://res.cloudinary.com/demo/s001.jpg" }

def p1 : PlacementR :=
  ⟨"P1", "S001", "Student One", "Google", 12, "photo.png", "", false, .pending⟩

def p1v : PlacementR :=
  { p1 with verificationStatus := .verified }

def n0 : NotificationR := ⟨0, "S001", "T", "M", "info", false⟩

def googleCo : CompanyR :=
  ⟨"Google", "https://res.cloudinary.com/demo/image/upload/google.png"⟩

def storeC1 : Store := { emptyStore with students := [s001p], placements := [p1v] }

def storeC3 : Store := { emptyStore with students := [s001p], placements := [p1] }

def storeC8 : Store := { emptyStore with students := [s001] }

def storeC8p : Store := { emptyStore with students := [s001p] }

def storeC9 : Store := { emptyStore with notifications := [n0], nextId := 1 }

/- ## Helper lemmas -/

theorem findPlacement_update (l : List PlacementR) (i : String) (v : VStatus) :
    findPlacement (updatePlacementStatus l i v) i
      = (findPlacement l i).map (fun p => { p with verificationStatus := v }) := by
  induction l with
  | nil => simp [findPlacement, updatePlacementStatus]
  | cons p rest ih =>
      by_cases h : p.pid = i
      · simp [findPlacement, updatePlacementStatus, List.find?, h]
      · simpa [findPlacement, updatePlacementStatus, List.find?, h] using ih

theorem readSet_idem (i : Nat) (n : NotificationR) :
    readSet i (readSet i n) = readSet i n := by
  unfold readSet
  by_cases h : n.nid = i <;> simp [h]

theorem map_readSet_idem (i : Nat) (l : List NotificationR) :
    (l.map (readSet i)).map (readSet i) = l.map (readSet i) := by
  rw [List.map_map]
  exact List.map_congr_left (fun n _ => readSet_idem i n)

/- ## Claim C4 -/

/-- C4 counterexample: the suffix-stripping regex is anchored at the end of
the string and removes a single match, so normalizing "Google Pvt Ltd"
yields "googlepvt", not "google" — the two canonical keys differ, contrary
to the claim. -/
theorem normalize_google_pvt_ltd_counterexample :
    ¬ (normalizeCompanyName "Google Pvt Ltd" = normalizeCompanyName "Google") := by
  decide

/-- C4 (amended): `normalizeCompanyName` removes only the single trailing
suffix token, so "Google Pvt Ltd" normalizes to "googlepvt", which differs
from "google"; hence the Report Assembler resolves the "Google" registry
logo for a row at "Google Ltd" (keys agree) but not for a row at
"Google Pvt Ltd" (keys disagree — such a row with no stored Cloudinary logo
gets no logo). -/
theorem normalize_single_suffix_resolution :
    normalizeCompanyName "Google Pvt Ltd" = "googlepvt" ∧
    normalizeCompanyName "Google" = "google" ∧
    normalizeCompanyName "Google Ltd" = normalizeCompanyName "Google" ∧
    resolveLogoUrl [googleCo] "Google Ltd" "" = googleCo.logo ∧
    resolveLogoUrl [googleCo] "Google Pvt Ltd" "" = "" := by
  refine ⟨by decide, by decide, by decide, ?_, ?_⟩ <;> decide

/- ## Claim C5 -/

/-- C5 counterexample: `createNotification` persists the Notification but
attempts no email send — the derived address is computed at server.js
208-214 and then discarded (`emailsSent` stays empty). -/
theorem createNotification_no_email_counterexample :
    (createNotification emptyStore "S001" "Welcome" "Hello" "info").emailsSent = [] ∧
    (createNotification emptyStore "S001" "Welcome" "Hello" "info").notifications
      = [⟨0, "S001", "Welcome", "Hello", "info", false⟩] := by
  decide

/-- C5 (amended): every call to the Notification Dispatcher persists exactly
one Notification record and derives the address (admin channel → configured
address, otherwise the lowercased identifier at the fixed domain), but the
dispatcher itself attempts no email send; emails are fired separately at
the trigger points. -/
theorem createNotification_spec :
    ∀ (st : Store) (recipient title message ntype : String),
      ((createNotification st recipient title message ntype).notifications
          = st.notifications ++ [⟨st.nextId, recipient, title, message, ntype, false⟩]) ∧
      ((createNotification st recipient title message ntype).emailsSent = st.emailsSent) ∧
      ((createNotification st recipient title message ntype).students = st.students) ∧
      ((createNotification st recipient title message ntype).placements = st.placements) ∧
      deriveEmail "admin" = adminEmail ∧
      (recipient ≠ "admin" →
        deriveEmail recipient = jsToLower recipient ++ "@gniindia.org") := by
  intro st recipient title message ntype
  refine ⟨rfl, rfl, rfl, rfl, rfl, ?_⟩
  intro h
  simp [deriveEmail, h]

/-- C5 witness: the amended theorem evaluated on a concrete store and a
non-admin recipient. -/
theorem createNotification_spec_witness :
    ((createNotification storeC9 "S001" "Hi" "Msg" "info").notifications
        = storeC9.notifications ++ [⟨1, "S001", "Hi", "Msg", "info", false⟩]) ∧
    ((createNotification storeC9 "S001" "Hi" "Msg" "info").emailsSent
        = storeC9.emailsSent) ∧
    deriveEmail "S001" = jsToLower "S001" ++ "@gniindia.org" := by
  have h := createNotification_spec storeC9 "S001" "Hi" "Msg" "info"
  exact ⟨h.1, h.2.1, h.2.2.2.2.2 (by decide)⟩

/- ## Claim C6 -/

/-- C6 counterexample: with an empty registry, a stored logo that merely
contains "cloudinary.com" is used even though it is not a fully-qualified
remote URL, while a fully-qualified remote URL outside Cloudinary is
discarded — the fallback test is substring containment of
"cloudinary.com", not URL shape. -/
theorem fallback_logo_counterexample :
    resolveLogoUrl [] "Acme" "res.cloudinary.com/demo/acme.png"
        = "res.cloudinary.com/demo/acme.png" ∧
    specFullyQualifiedRemoteUrl "res.cloudinary.com/demo/acme.png" = false ∧
    resolveLogoUrl [] "Acme" "https://example.com/logo.png" = "" ∧
    specFullyQualifiedRemoteUrl "https://example.com/logo.png" = true := by
  refine ⟨?_, by decide, ?_, by decide⟩ <;> decide

/-- C6 (amended): the row logo is resolved registry-first under the
normalized company name; on a registry miss the row's own stored logo is
used exactly when it is nonempty and contains the substring
"cloudinary.com"; otherwise the row gets no logo. -/
theorem resolveLogo_spec :
    ∀ (cs : List CompanyR) (company rowLogo : String),
      (∀ l, registryLogo cs (normalizeCompanyName company) = some l →
         resolveLogoUrl cs company rowLogo = l) ∧
      (registryLogo cs (normalizeCompanyName company) = none →
         rowLogo ≠ "" →
         strIncludes rowLogo "cloudinary.com" = true →
         resolveLogoUrl cs company rowLogo = rowLogo) ∧
      (registryLogo cs (normalizeCompanyName company) = none →
         (rowLogo = "" ∨ strIncludes rowLogo "cloudinary.com" = false) →
         resolveLogoUrl cs company rowLogo = "") := by
  intro cs company rowLogo
  refine ⟨?_, ?_, ?_⟩
  · intro l h
    simp [resolveLogoUrl, h]
  · intro h hne hinc
    simp [resolveLogoUrl, h, hinc, hne]
  · intro h hcase
    rcases hcase with hempty | hninc
    · simp [resolveLogoUrl, h, hempty]
    · simp [resolveLogoUrl, h, hninc]

/-- C6 witness: the amended theorem evaluated at a registry hit, a
Cloudinary fallback, and a no-logo row. -/
theorem resolveLogo_spec_witness :
    resolveLogoUrl [googleCo] "Google" "x" = googleCo.logo ∧
    resolveLogoUrl [] "Acme" "res.cloudinary.com/a.png" = "res.cloudinary.com/a.png" ∧
    resolveLogoUrl [] "Acme" "logo.png" = "" := by
  refine ⟨?_, ?_, ?_⟩
  · exact (resolveLogo_spec [googleCo] "Google" "x").1 googleCo.logo (by decide)
  · exact (resolveLogo_spec [] "Acme" "res.cloudinary.com/a.png").2.1
      (by decide) (by decide) (by decide)
  · exact (resolveLogo_spec [] "Acme" "logo.png").2.2 (by decide) (Or.inr (by decide))

/- ## Claim C2 -/

/-- C2 counterexample: verifying a placement id that resolves to no record
still answers `{ success: true }` (server.js falls through to line 962), so
the operation does not report failure — though the store is untouched and
no Notification is created. -/
theorem adminVerify_missing_id_counterexample :
    (adminVerify emptyStore "placement" "507f1f77bcf86cd799439011" (some "approve") true).1
        = true ∧
    (adminVerify emptyStore "placement" "507f1f77bcf86cd799439011" (some "approve") true).2
        = emptyStore := by
  decide

/-- C2 (amended): for a verification action on an id that resolves to no
record of the given type, no mutation is performed and no Notification is
created, but the route reports success (`{ success: true }`); the not-found
condition is only logged. -/
theorem adminVerify_missing_id_no_mutation :
    ∀ (st : Store) (i : String) (action : Option String) (eok : Bool),
      (findPlacement st.placements i = none →
        adminVerify st "placement" i action eok = (true, st)) ∧
      (findStudentByOid st.students i = none →
        adminVerify st "original" i action eok = (true, st)) := by
  intro st i action eok
  constructor
  · intro h
    simp [adminVerify, h]
  · intro h
    simp [adminVerify, h]

/-- C2 witness: the amended theorem evaluated on the empty store, where no
id resolves. -/
theorem adminVerify_missing_id_no_mutation_witness :
    adminVerify emptyStore "placement" "X" (some "reject") false = (true, emptyStore) ∧
    adminVerify emptyStore "original" "X" none true = (true, emptyStore) := by
  exact ⟨(adminVerify_missing_id_no_mutation emptyStore "X" (some "reject") false).1 (by decide),
         (adminVerify_missing_id_no_mutation emptyStore "X" none true).2 (by decide)⟩

/- ## Claim C3 -/

/-- C3: approving an existing pending placement whose owning student is on
record sets the placement to `verified`, appends exactly one Notification
addressed to that student with type `success`, records exactly one email
attempt to the student's derived address, and reports success regardless of
the email outcome. -/
theorem adminVerify_approve_pending :
    ∀ (st : Store) (i : String) (p : PlacementR) (s : StudentR) (eok : Bool),
      findPlacement st.placements i = some p →
      p.verificationStatus = .pending →
      findStudentById st.students p.studentId = some s →
      ((adminVerify st "placement" i (some "approve") eok).1 = true ∧
       findPlacement (adminVerify st "placement" i (some "approve") eok).2.placements i
         = some { p with verificationStatus := .verified } ∧
       (adminVerify st "placement" i (some "approve") eok).2.notifications
         = st.notifications ++
           [⟨st.nextId, s.id, verifiedTitle, verifiedMessage p.company, "success", false⟩] ∧
       (adminVerify st "placement" i (some "approve") eok).2.emailsSent
         = st.emailsSent ++ [(jsToLower s.id ++ "@gniindia.org", eok)] ∧
       (adminVerify st "placement" i (some "approve") true).1
         = (adminVerify st "placement" i (some "approve") false).1) := by
  intro st i p s eok hp _hpend hs
  have htgt : targetStatus (some "approve") = .verified := by decide
  refine ⟨?_, ?_, ?_, ?_, ?_⟩ <;>
    simp [adminVerify, hp, hs, htgt, createNotification, findPlacement_update]

/-- C3 witness: a concrete store with one pending placement owned by a
student on record. -/
theorem adminVerify_approve_pending_witness :
    (adminVerify storeC3 "placement" "P1" (some "approve") false).1 = true ∧
    findPlacement (adminVerify storeC3 "placement" "P1" (some "approve") false).2.placements "P1"
      = some { p1 with verificationStatus := .verified } ∧
    (adminVerify storeC3 "placement" "P1" (some "approve") false).2.notifications
      = storeC3.notifications ++
        [⟨storeC3.nextId, s001p.id, verifiedTitle, verifiedMessage p1.company, "success", false⟩] ∧
    (adminVerify storeC3 "placement" "P1" (some "approve") false).2.emailsSent
      = storeC3.emailsSent ++ [(jsToLower s001p.id ++ "@gniindia.org", false)] ∧
    (adminVerify storeC3 "placement" "P1" (some "approve") true).1
      = (adminVerify storeC3 "placement" "P1" (some "approve") false).1 := by
  exact adminVerify_approve_pending storeC3 "P1" p1 s001p false
    (by decide) (by decide) (by decide)

/- ## Claim C10 -/

/-- C10: the target status is `verified` exactly when the action is
`approve`; any other action value — including a missing or malformed one —
yields `rejected`, and the verify route has no invalid-action error branch
(it answers success in every non-exception path). -/
theorem targetStatus_approve_iff :
    (∀ action : Option String,
       targetStatus action = .verified ↔ action = some "approve") ∧
    targetStatus none = .rejected ∧
    targetStatus (some "reject") = .rejected ∧
    targetStatus (some "APPROVE") = .rejected ∧
    targetStatus (some "") = .rejected ∧
    (∀ (st : Store) (ty i : String) (action : Option String) (eok : Bool),
       (adminVerify st ty i action eok).1 = true) := by
  refine ⟨?_, by decide, by decide, by decide, by decide, ?_⟩
  · intro action
    constructor
    · intro h
      by_contra hne
      simp [targetStatus, hne] at h
    · intro h
      simp [targetStatus, h]
  · intro st ty i action eok
    by_cases hty : ty = "placement"
    · cases hp : findPlacement st.placements i with
      | none => simp [adminVerify, hty, hp]
      | some p =>
          cases hs : findStudentById st.students p.studentId with
          | none => simp [adminVerify, hty, hp, hs]
          | some s => simp [adminVerify, hty, hp, hs]
    · by_cases hor : ty = "original"
      · cases hs : findStudentByOid st.students i with
        | none => simp [adminVerify, hty, hor, hs]
        | some s => simp [adminVerify, hty, hor, hs]
      · simp [adminVerify, hty, hor]

/- ## Claim C7 -/

/-- C7: a placement submission by a student with no profile photo on file
(or whose session id resolves to no student) is rejected and creates no
Placement; when the student has a photo, exactly one Placement is appended
and it carries `verificationStatus = pending`. -/
theorem submitPlacement_photo_gate :
    ∀ (st : Store) (sessionId sessionName company : String) (salary : Int)
      (logo pid : String) (eok : Bool),
      (findStudentCI st.students sessionId = none →
        submitPlacement st sessionId sessionName company salary logo pid eok
          = (false, st)) ∧
      (∀ s, findStudentCI st.students sessionId = some s → photoEmpty s = true →
        submitPlacement st sessionId sessionName company salary logo pid eok
          = (false, st)) ∧
      (∀ s, findStudentCI st.students sessionId = some s → photoEmpty s = false →
        ((submitPlacement st sessionId sessionName company salary logo pid eok).1
            = true ∧
         (submitPlacement st sessionId sessionName company salary logo pid eok).2.placements
            = st.placements ++ [newPlacementDoc pid sessionId s company salary logo] ∧
         (newPlacementDoc pid sessionId s company salary logo).verificationStatus
            = .pending)) := by
  intro st sessionId sessionName company salary logo pid eok
  refine ⟨?_, ?_, ?_⟩
  · intro h
    simp [submitPlacement, h]
  · intro s hs hph
    simp [submitPlacement, hs, hph]
  · intro s hs hph
    refine ⟨?_, ?_, rfl⟩ <;>
      simp [submitPlacement, hs, hph, createNotification]

/-- C7 witness: the photo-less student `s001` is rejected with no store
change; the photo-bearing `s001p` gets a new pending placement. -/
theorem submitPlacement_photo_gate_witness :
    submitPlacement storeC8 "S001" "Student One" "Google" 12 "" "P9" true
      = (false, storeC8) ∧
    (submitPlacement storeC8p "S001" "Student One" "Google" 12 "" "P9" true).1 = true ∧
    (submitPlacement storeC8p "S001" "Student One" "Google" 12 "" "P9" true).2.placements
      = storeC8p.placements ++ [newPlacementDoc "P9" "S001" s001p "Google" 12 ""] ∧
    (newPlacementDoc "P9" "S001" s001p "Google" 12 "").verificationStatus
      = VStatus.pending := by
  have h1 :=
    (submitPlacement_photo_gate storeC8 "S001" "Student One" "Google" 12 "" "P9" true).2.1
      s001 (by decide) (by decide)
  have h2 :=
    (submitPlacement_photo_gate storeC8p "S001" "Student One" "Google" 12 "" "P9" true).2.2
      s001p (by decide) (by decide)
  exact ⟨h1, h2.1, h2.2.1, h2.2.2⟩

/- ## Claim C8 -/

/-- C8: after the startup sweep every student with a missing/empty photo is
`pending`; a profile-photo upload always leaves the uploader `pending`
(never `verified`); and across all Student-collection writes, a student can
only become `verified` through the admin verify action `approve` on their
record — every other operation preserves or resets the status. -/
theorem student_verification_lifecycle :
    (∀ (st : Store) (s : StudentR),
       s ∈ (checkStudentVerification st).students → photoEmpty s = true →
       s.verificationStatus = .pending) ∧
    (∀ (st : Store) (sessionId photoUrl : String) (s : StudentR),
       s ∈ (uploadPhoto st sessionId photoUrl).2.students →
       jsToLower s.id = jsToLower sessionId →
       s.verificationStatus = .pending) ∧
    (∀ (st : Store) (op : StudentOp) (s : StudentR),
       s ∈ (applyStudentOp st op).students →
       s.verificationStatus = .verified →
       (∃ s0 ∈ st.students, s0.id = s.id ∧ s0.verificationStatus = .verified) ∨
       (∃ oid eok, op = .verifyOriginal oid (some "approve") eok)) := by
  refine ⟨?_, ?_, ?_⟩
  · intro st s hmem hph
    obtain ⟨s0, _, rfl⟩ := List.mem_map.mp hmem
    by_cases h0 : photoEmpty s0 = true
    · simp [h0]
    · simp [h0] at hph
  · intro st sessionId photoUrl s hmem hid
    obtain ⟨s0, _, rfl⟩ := List.mem_map.mp hmem
    by_cases h0 : jsToLower s0.id = jsToLower sessionId
    · simp [h0]
    · simp [h0] at hid
  · intro st op s hmem hver
    cases op with
    | sweep =>
        left
        obtain ⟨s0, h0, rfl⟩ := List.mem_map.mp hmem
        by_cases hph : photoEmpty s0 = true
        · simp [hph] at hver
        · simp [hph] at hver ⊢
          exact ⟨s0, h0, rfl, hver⟩
    | upload sid url =>
        left
        obtain ⟨s0, h0, rfl⟩ := List.mem_map.mp hmem
        by_cases hid : jsToLower s0.id = jsToLower sid
        · simp [hid] at hver
        · simp [hid] at hver ⊢
          exact ⟨s0, h0, rfl, hver⟩
    | adminUpdate sid name company salary =>
        left
        obtain ⟨s0, h0, rfl⟩ := List.mem_map.mp hmem
        by_cases hid : jsToLower s0.id = jsToLower sid
        · simp [hid] at hver ⊢
          exact ⟨s0, h0, rfl, hver⟩
        · simp [hid] at hver ⊢
          exact ⟨s0, h0, rfl, hver⟩
    | verifyOriginal oid action eok =>
        by_cases hact : action = some "approve"
        · right
          exact ⟨oid, eok, by rw [hact]⟩
        · left
          have htgt : targetStatus action = .rejected := by
            simp [targetStatus, hact]
          simp only [applyStudentOp, adminVerify] at hmem
          cases hs : findStudentByOid st.students oid with
          | none =>
              simp [hs] at hmem
              exact ⟨s, hmem, rfl, hver⟩
          | some s1 =>
              simp [hs, createNotification, updateStudentStatusByOid] at hmem
              obtain ⟨s0, h0, hfs⟩ := hmem
              subst hfs
              by_cases hoid : s0.oid = oid
              · simp [hoid, htgt] at hver
              · simp [hoid] at hver ⊢
                exact ⟨s0, h0, rfl, hver⟩

/-- C8 witness: the sweep on `s001` (no photo) leaves it `pending`; a photo
upload leaves the uploader `pending`; and the admin approve action can make
it `verified`. -/
theorem student_verification_lifecycle_witness :
    s001.verificationStatus = VStatus.pending ∧
    ({ s001 with photo := some "https://res.cloudinary.com/demo/new.jpg",
                 verificationStatus := VStatus.pending }).verificationStatus
      = VStatus.pending ∧
    ((∃ s0 ∈ storeC8.students, s0.id = ({ s001 with verificationStatus := VStatus.verified } : StudentR).id ∧
        s0.verificationStatus = VStatus.verified) ∨
     (∃ oid eok, StudentOp.verifyOriginal "OID1" (some "approve") true
        = StudentOp.verifyOriginal oid (some "approve") eok)) := by
  refine ⟨?_, ?_, ?_⟩
  · exact student_verification_lifecycle.1 storeC8 s001 (by decide) (by decide)
  · exact student_verification_lifecycle.2.1 storeC8 "S001"
      "https://res.cloudinary.com/demo/new.jpg"
      { s001 with photo := some "https://res.cloudinary.com/demo/new.jpg",
                  verificationStatus := VStatus.pending }
      (by decide) (by decide)
  · exact student_verification_lifecycle.2.2 storeC8
      (.verifyOriginal "OID1" (some "approve") true)
      { s001 with verificationStatus := VStatus.verified }
      (by decide) (by decide)

/- ## Claim C9 -/

/-- C9: marking a notification as read by id always reports success, is
idempotent on the store, and after the call every notification with that id
has `read = true`; a second identical call changes nothing and also
succeeds. -/
theorem markAsRead_idempotent :
    ∀ (st : Store) (recipient : String) (i : Nat),
      (markAsRead st recipient (some i)).1 = true ∧
      (markAsRead (markAsRead st recipient (some i)).2 recipient (some i)).1 = true ∧
      (markAsRead (markAsRead st recipient (some i)).2 recipient (some i)).2
        = (markAsRead st recipient (some i)).2 ∧
      (∀ n, n ∈ (markAsRead st recipient (some i)).2.notifications → n.nid = i →
        n.read = true) := by
  intro st recipient i
  refine ⟨rfl, rfl, ?_, ?_⟩
  · simp [markAsRead]
    intro a _
    exact readSet_idem i a
  · intro n hmem hnid
    obtain ⟨m, _, rfl⟩ := List.mem_map.mp hmem
    by_cases h0 : m.nid = i
    · simp [readSet, h0]
    · simp [readSet, h0] at hnid

/-- C9 witness: both calls on the store holding the unread notification
`n0` succeed, the second call is a no-op, and the notification ends read. -/
theorem markAsRead_idempotent_witness :
    (markAsRead storeC9 "S001" (some 0)).1 = true ∧
    (markAsRead (markAsRead storeC9 "S001" (some 0)).2 "S001" (some 0)).1 = true ∧
    (markAsRead (markAsRead storeC9 "S001" (some 0)).2 "S001" (some 0)).2
      = (markAsRead storeC9 "S001" (some 0)).2 ∧
    ({ n0 with read := true }).read = true := by
  have h := markAsRead_idempotent storeC9 "S001" 0
  exact ⟨h.1, h.2.1, h.2.2.1, h.2.2.2 { n0 with read := true } (by decide) (by decide)⟩

/- ## Claim C1 -/

/-- C1: a student-triggered placement edit can never reset the status to
`pending`, because the edit path does not exist: the client calls a
`updatePlacement` service method that `PlacementService` does not define,
no registered server route matches a `PUT /api/placements/:id` request for
any id, and the 404 catch-all that would receive such a request performs no
store mutation — a verified placement stays `verified`. -/
theorem placement_edit_endpoint_missing :
    (∀ pid : String, findRoute "PUT" ["api", "placements", pid] = none) ∧
    "updatePlacement" ∉ placementServiceMethods ∧
    (∀ st : Store, (notFoundHandler st).2 = st) ∧
    (notFoundHandler storeC1).2.placements.map (fun p => p.verificationStatus)
      = [VStatus.verified] ∧
    VStatus.verified ≠ VStatus.pending := by
  refine ⟨?_, by decide, fun _ => rfl, by decide, by decide⟩
  intro pid
  simp [findRoute, routes, pathMatches, segMatches, List.find?]
